import Mathlib

/-!
Verification development for the Internet-Chat peer session/relay protocol.

The definitions below are a shallow embedding of `src/hooks/usePeerChat.ts`
(augmented by `src/services/gemini.ts` and the data model of `src/types.ts`).
React's `useState`/`useRef` cell pairs are modelled as one explicit record
`HookState`; each event handler becomes a state-transformer that additionally
returns the messages it pushes onto peer connections.  Asynchronously supplied
values (fresh `crypto.randomUUID()` identifiers, `Date.now()` timestamps, the
outcome of the external responder call) are passed in as explicit parameters.

Reads that the source performs through the functional `setState(prev => ...)`
updaters or through refs (`messageIdsRef`, `messagesRef`, `connectionsRef`,
`connMapRef`, `retryCountRef`) always observe the current value and are
modelled as reads of the current state.  Two handlers instead read the
`state` constant of the render in which they were registered, a snapshot
that is never refreshed: the host `data` handler's `state.users` (registered
inside `createRoom`, line 266, read at line 416) and the guest close
handler's `state.status` (registered inside `joinRoom`, read at line 318).
These closure-captured snapshots are passed as explicit parameters
(`HostCtx.closureUsers`, the `closureStatus` argument of
`guestHandleConnClose`), so the theorems quantify over what the closure
actually holds rather than pretending the reads are live.
The JavaScript stable `Array.prototype.sort` with the comparator
`(a, b) => a.timestamp - b.timestamp` is modelled by Mathlib's stable
`List.insertionSort` over the `tsLE` relation.
-/

namespace Nexus

/-- `MessageType` enum from `src/types.ts`. -/
inductive MessageType
  | TEXT
  | IMAGE
  | SYSTEM
  | AI
deriving DecidableEq, Repr

/-- The `'online' | 'away'` presence values on `User.status`. -/
inductive UserPresence
  | online
  | away
deriving DecidableEq, Repr

/-- `ChatState.status` values from `src/types.ts`. -/
inductive SessionStatus
  | idle
  | connecting
  | connected
  | error
  | kicked
deriving DecidableEq, Repr

/-- `User` from `src/types.ts`; the optional `status` and `isMuted` fields
default like the source (undefined is falsy for `isMuted`). -/
structure User where
  id : String
  name : String
  color : String
  isHost : Bool
  avatar : Option String := none
  status : UserPresence := .online
  isMuted : Bool := false
deriving DecidableEq, Repr

/-- `Message` from `src/types.ts`; `timestamp` is `Date.now()`, a Nat. -/
structure Message where
  id : String
  senderId : String
  senderName : String
  content : String
  timestamp : Nat
  type : MessageType
deriving DecidableEq, Repr

/-- Runtime shape of a `history_sync` payload: the code guards with
`Array.isArray`, so a payload is either an array of messages or not. -/
inductive HistoryPayload
  | arr (messages : List Message)
  | notArray
deriving DecidableEq, Repr

/-- `PeerData` from `src/types.ts`: the tagged wire envelope. -/
inductive PeerData
  | handshake (payload : User)
  | message (payload : Message)
  | user_list_update (payload : List User)
  | typing_status (name : String) (isTyping : Bool)
  | history_sync (payload : HistoryPayload)
  | status_update (userId : String) (status : UserPresence)
  | kick_notification (payload : String)
deriving DecidableEq, Repr

/-- A peerjs `DataConnection` as the code observes it: its peer id and its
`open` flag. -/
structure DataConnection where
  peer : String
  isOpen : Bool
deriving DecidableEq, Repr

/-- An outbound transmission: `conn.send` on a guest connection (host side)
or `hostConnectionRef.current.send` (guest side). -/
inductive Send
  | toPeer (peer : String) (data : PeerData)
  | toHost (data : PeerData)
deriving DecidableEq, Repr

/-- The hook's mutable cells, combined: the `ChatState` record plus
`currentUser`, `isAiThinking`, and the refs (`connectionsRef`,
`hostConnectionRef.open`, `messageIdsRef`, `connMapRef`, `retryCountRef`). -/
structure HookState where
  users : List User
  messages : List Message
  roomId : Option String
  status : SessionStatus
  error : Option String
  typingUsers : List String
  currentUser : Option User
  isAiThinking : Bool
  connections : List DataConnection
  hostConnOpen : Bool
  messageIds : Finset String
  connMap : List (String × String)
  retryCount : Nat
deriving DecidableEq

/-- Comparator order used by `merged.sort((a, b) => a.timestamp - b.timestamp)`. -/
def tsLE (a b : Message) : Prop := a.timestamp ≤ b.timestamp

instance : DecidableRel tsLE := fun a b => Nat.decLe a.timestamp b.timestamp

instance : IsTotal Message tsLE := ⟨fun a b => Nat.le_total a.timestamp b.timestamp⟩

instance : IsTrans Message tsLE := ⟨fun _ _ _ h1 h2 => Nat.le_trans h1 h2⟩

/-- Strict timestamp order, used to pin down the sorted list when all
timestamps are distinct. -/
def tsLT (a b : Message) : Prop := a.timestamp < b.timestamp

instance : IsTrans Message tsLT := ⟨fun _ _ _ h1 h2 => Nat.lt_trans h1 h2⟩

instance : IsAntisymm Message tsLT :=
  ⟨fun _ _ h1 h2 => absurd h1 (Nat.lt_asymm h2)⟩

/-- `addMessage` (usePeerChat.ts lines 110-114): dedup by id, then append. -/
def addMessage (st : HookState) (msg : Message) : HookState :=
  if msg.id ∈ st.messageIds then st
  else { st with
    messageIds := insert msg.id st.messageIds
    messages := st.messages ++ [msg] }

/-- `broadcast` (lines 162-166): send to every open registered connection. -/
def broadcast (st : HookState) (data : PeerData) : List Send :=
  (st.connections.filter (fun c => c.isOpen)).map (fun c => Send.toPeer c.peer data)

/-- `sendToHost` (lines 168-172). -/
def sendToHost (st : HookState) (data : PeerData) : List Send :=
  if st.hostConnOpen then [Send.toHost data] else []

/-- `handleTypingUpdate` (lines 120-126). -/
def handleTypingUpdate (st : HookState) (name : String) (isTyping : Bool) : HookState :=
  let others := st.typingUsers.filter (fun n => n ≠ name)
  if isTyping then { st with typingUsers := others ++ [name] }
  else { st with typingUsers := others }

/-- The hardcoded responder key from `src/services/gemini.ts`. -/
def DEEPSEEK_API_KEY : String := "sk-0438341f9a094b9798be75f4ceaa37bd"

/-- How a single external responder HTTP interaction resolves. -/
inductive ResponderOutcome
  | success (text : String)
  | fetchFailure
  | httpNotOk
  | emptyChoices
deriving DecidableEq, Repr

/-- The string returned from the catch-all error branch of
`generateAIResponse` (gemini.ts lines 83-86). -/
def AI_FAILURE_FALLBACK : String :=
  "⚠️ Sorry, I\x27m having trouble connecting to my brain right now (DeepSeek API Error)."

/-- `generateAIResponse` from `src/services/gemini.ts`, as a function of how
the network interaction resolves.  Every failure path is caught inside the
function and converted to a returned string, so the embedding is a total
function into `String`: the promise never rejects. -/
def generateAIResponse (outcome : ResponderOutcome) : String :=
  if DEEPSEEK_API_KEY = "" then "⚠️ AI Configuration Error: API Key missing."
  else
    match outcome with
    | .success text => text
    | .fetchFailure => AI_FAILURE_FALLBACK
    | .httpNotOk => AI_FAILURE_FALLBACK
    | .emptyChoices => "I\x27m thinking... but couldn\x27t come up with words."

/-- `s.toLowerCase()`, modelled character-wise over the string's data. -/
def toLowerStr (s : String) : String := String.mk (s.data.map Char.toLower)

/-- `content.toLowerCase().includes(token)`. -/
def includesToken (content token : String) : Bool :=
  decide (List.IsInfix token.data (toLowerStr content).data)

/-- The bot-address test used at lines 206 and 423. -/
def mentionsBot (content : String) : Bool :=
  includesToken content "@nexus" || includesToken content "@ai"

/-- `handleGuestData` (lines 479-518).  A `handshake` or `status_update`
arriving at a guest matches no branch and is ignored. -/
def guestHandleData (st : HookState) (data : PeerData) : HookState :=
  match data with
  | .user_list_update payload =>
    let st1 := { st with users := payload }
    match st.currentUser with
    | none => st1
    | some cu =>
      match payload.find? (fun u => u.id = cu.id) with
      | none => st1
      | some myUser =>
        if myUser.isMuted ≠ cu.isMuted then
          { st1 with currentUser := some { cu with isMuted := myUser.isMuted } }
        else st1
  | .message payload => addMessage st payload
  | .history_sync payload =>
    match payload with
    | .notArray => st
    | .arr history =>
      let historyIds := history.map (fun m => m.id)
      let localMessages := st.messages.filter (fun m => m.id ∉ historyIds)
      let merged := List.insertionSort tsLE (history ++ localMessages)
      { st with
        messages := merged
        messageIds := st.messageIds ∪ (merged.map (fun m => m.id)).toFinset }
  | .typing_status name isTyping => handleTypingUpdate st name isTyping
  | .kick_notification payload =>
    { st with status := .kicked, error := some payload, hostConnOpen := false }
  | .handshake _ => st
  | .status_update _ _ => st

/-- The guest's host-connection `close` handler (lines 317-321).  Its guard
reads `state.status` from the closure of the render in which `joinRoom` ran;
that captured snapshot (`closureStatus`) is fixed at handler registration
and never refreshed, while the write goes through the live state.  The
status a later `kick_notification` sets is therefore invisible to the
guard. -/
def guestHandleConnClose (st : HookState) (closureStatus : SessionStatus) : HookState :=
  if closureStatus ≠ .kicked then
    { st with status := .error, error := some "Host disconnected." }
  else st

/-- Error classes a dial can fail with (`err.type` of the peer error). -/
inductive PeerErrorType
  | peerUnavailable
  | other (tag : String)
deriving DecidableEq, Repr

/-- Side effects a guest error handler can request. -/
inductive GuestAction
  | dialRetry (delayMs : Nat)
deriving DecidableEq, Repr

/-- The guest peer `error` handler inside `joinRoom` (lines 328-343):
bounded retry for `peer-unavailable`, immediate fatal error otherwise. -/
def guestHandlePeerError (st : HookState) (errType : PeerErrorType) :
    HookState × List GuestAction :=
  if errType = .peerUnavailable ∧ st.retryCount < 3 then
    ({ st with retryCount := st.retryCount + 1 }, [GuestAction.dialRetry 2000])
  else
    ({ st with
        status := .error
        error := some (match errType with
          | .peerUnavailable => "Room ID not found. Host might be offline."
          | .other tag => "Connection Error: " ++ tag) }, [])

/-- The chunk size used for history replay (line 403). -/
def CHUNK_SIZE : Nat := 20

/-- The chunking loop of lines 407-410: successive slices of 20 messages. -/
def chunkHistory : List Message → List (List Message)
  | [] => []
  | m :: rest =>
    ((m :: rest).take CHUNK_SIZE) :: chunkHistory ((m :: rest).drop CHUNK_SIZE)
termination_by l => l.length
decreasing_by
  simp only [List.length_drop, List.length_cons, CHUNK_SIZE]
  omega

/-- The deferred history transmission scheduled by the handshake branch:
a delay, a target connection, and the chunk sequence. -/
structure HistorySchedule where
  delayMs : Nat
  target : String
  chunks : List (List Message)
deriving DecidableEq, Repr

/-- Result of one host data event: the new state, the synchronous sends, the
history transmission scheduled (handshake only), and the values successively
assigned to `isAiThinking` while handling the event. -/
structure HostStepOut where
  state : HookState
  sends : List Send
  historySchedule : Option HistorySchedule
  thinkingTrace : List Bool
deriving DecidableEq

/-- Environment-supplied inputs of a host data event: the sending peer, the
`crypto.randomUUID()` value consumed by the branch, `Date.now()`, how a
responder call (if any) resolves, and `closureUsers` — the `state.users`
snapshot captured by the closure of the render in which `createRoom`
registered the `data` handler (line 266).  On a fresh room this is the
pre-creation roster (empty), and it is never refreshed, so it does not
contain any guest admitted afterwards. -/
structure HostCtx where
  senderPeer : String
  freshId : String
  now : Nat
  aiOutcome : ResponderOutcome
  closureUsers : List User
deriving Repr

/-- The System message announcing a join (lines 386-393). -/
def joinedSysMsg (ctx : HostCtx) (newUser : User) : Message :=
  { id := ctx.freshId, senderId := "system", senderName := "System"
    content := newUser.name ++ " joined the room."
    timestamp := ctx.now, type := .SYSTEM }

/-- The `BotReply` message the host synthesizes when the responder call
settles (lines 428-435). -/
def aiReplyMsg (ctx : HostCtx) : Message :=
  { id := ctx.freshId, senderId := "ai-bot", senderName := "Nexus AI"
    content := generateAIResponse ctx.aiOutcome, timestamp := ctx.now, type := .AI }

/-- `handleHostData` (lines 364-450).  All state reads except one go through
functional updaters or refs and observe the current state; the `message`
branch's muted check (line 416: `const sender = state.users.find(...)`)
instead reads the closure snapshot `ctx.closureUsers`. -/
def handleHostData (st : HookState) (ctx : HostCtx) (data : PeerData) : HostStepOut :=
  match data with
  | .handshake newUser =>
    let connMap1 :=
      (st.connMap.filter (fun e => e.1 ≠ ctx.senderPeer)) ++ [(ctx.senderPeer, newUser.id)]
    let newUsers :=
      match st.users.findIdx? (fun u => u.id = newUser.id) with
      | some i => st.users.set i { newUser with status := .online }
      | none => st.users ++ [{ newUser with status := .online }]
    let st1 := { st with users := newUsers, connMap := connMap1 }
    let sends1 := broadcast st1 (.user_list_update newUsers)
    let sysMsg : Message := joinedSysMsg ctx newUser
    let st2 := addMessage st1 sysMsg
    let sends2 := broadcast st2 (.message sysMsg)
    let historyToSync := st.messages ++ [sysMsg]
    { state := st2
      sends := sends1 ++ sends2
      historySchedule := some
        { delayMs := 800, target := ctx.senderPeer, chunks := chunkHistory historyToSync }
      thinkingTrace := [] }
  | .message msg =>
    let sender := ctx.closureUsers.find? (fun u => u.id = msg.senderId)
    if (sender.map (fun u => u.isMuted)).getD false then
      { state := st, sends := [], historySchedule := none, thinkingTrace := [] }
    else
      let st1 := addMessage st msg
      let sends1 := broadcast st1 (.message msg)
      if msg.type = .TEXT ∧ mentionsBot msg.content then
        let aiMessage : Message := aiReplyMsg ctx
        let st2 := addMessage st1 aiMessage
        let sends2 := broadcast st2 (.message aiMessage)
        { state := { st2 with isAiThinking := false }
          sends := sends1 ++ sends2
          historySchedule := none
          thinkingTrace := [true, false] }
      else
        { state := st1, sends := sends1, historySchedule := none, thinkingTrace := [] }
  | .typing_status name isTyping =>
    let st1 := handleTypingUpdate st name isTyping
    { state := st1, sends := broadcast st1 (.typing_status name isTyping)
      historySchedule := none, thinkingTrace := [] }
  | .status_update userId status =>
    let newUsers := st.users.map (fun u => if u.id = userId then { u with status := status } else u)
    let st1 := { st with users := newUsers }
    { state := st1, sends := broadcast st1 (.user_list_update newUsers)
      historySchedule := none, thinkingTrace := [] }
  | _ => { state := st, sends := [], historySchedule := none, thinkingTrace := [] }

/-- Firing the scheduled history timeout (lines 405-412): if the guest
connection is still open, send the chunk sequence in order. -/
def fireHistoryTimeout (connOpenAtFire : Bool) (sched : HistorySchedule) : List Send :=
  if connOpenAtFire then
    sched.chunks.map (fun chunk => Send.toPeer sched.target (PeerData.history_sync (.arr chunk)))
  else []

/-- The System message announcing a departure (lines 467-474). -/
def leftSysMsg (freshId : String) (now : Nat) (userName : String) : Message :=
  { id := freshId, senderId := "system", senderName := "System"
    content := userName ++ " left the room."
    timestamp := now, type := .SYSTEM }

/-- `handleUserDisconnect` (lines 452-477). -/
def handleUserDisconnect (st : HookState) (userId userName : String)
    (freshId : String) (now : Nat) : HookState × List Send :=
  let newUsers := st.users.filter (fun u => u.id ≠ userId)
  let conns1 := st.connections.filter (fun c => c.isOpen)
  let st1 := { st with users := newUsers, connections := conns1 }
  let sends1 := conns1.map (fun c => Send.toPeer c.peer (.user_list_update newUsers))
  let sysMsg : Message := leftSysMsg freshId now userName
  let st2 := addMessage st1 sysMsg
  let sends2 := broadcast st2 (.message sysMsg)
  (st2, sends1 ++ sends2)

/-- `kickUser` (lines 129-147): notify the target connection, then apply the
organic-disconnect logic immediately. -/
def kickUser (st : HookState) (targetUserId : String)
    (freshId : String) (now : Nat) : HookState × List Send :=
  if ((st.currentUser.map (fun u => u.isHost)).getD false) = false then (st, [])
  else
    let kickSends :=
      match st.connections.find? (fun c => List.lookup c.peer st.connMap = some targetUserId) with
      | some conn => [Send.toPeer conn.peer (.kick_notification "You have been kicked by the host.")]
      | none => []
    match st.users.find? (fun u => u.id = targetUserId) with
    | some targetUser =>
      let r := handleUserDisconnect st targetUserId targetUser.name freshId now
      (r.1, kickSends ++ r.2)
    | none => (st, kickSends)

/-- `toggleMuteUser` (lines 149-160). -/
def toggleMuteUser (st : HookState) (targetUserId : String) : HookState × List Send :=
  if ((st.currentUser.map (fun u => u.isHost)).getD false) = false then (st, [])
  else
    let updatedUsers :=
      st.users.map (fun u => if u.id = targetUserId then { u with isMuted := !u.isMuted } else u)
    ({ st with users := updatedUsers }, broadcast st (.user_list_update updatedUsers))

/-- `sendMessage` (lines 184-225): muted guard, local append, distribution,
and the host-side bot trigger. -/
def sendMessage (st : HookState) (content : String) (mtype : MessageType)
    (newId : String) (now : Nat) (aiOutcome : ResponderOutcome)
    (aiId : String) (aiNow : Nat) : HookState × List Send :=
  match st.currentUser with
  | none => (st, [])
  | some cu =>
    if cu.isMuted then (st, [])
    else
      let newMessage : Message :=
        { id := newId, senderId := cu.id, senderName := cu.name
          content := content, timestamp := now, type := mtype }
      let st1 := addMessage st newMessage
      let sends1 :=
        if cu.isHost then broadcast st1 (.message newMessage)
        else sendToHost st1 (.message newMessage)
      if cu.isHost ∧ mtype = .TEXT ∧ mentionsBot content then
        let aiMessage : Message :=
          { id := aiId, senderId := "ai-bot", senderName := "Nexus AI"
            content := generateAIResponse aiOutcome, timestamp := aiNow, type := .AI }
        let st2 := addMessage st1 aiMessage
        ({ st2 with isAiThinking := false }, sends1 ++ broadcast st2 (.message aiMessage))
      else (st1, sends1)

/-- `setTyping` (lines 174-182): pure send, no local state change. -/
def setTyping (st : HookState) (isTyping : Bool) : List Send :=
  match st.currentUser with
  | none => []
  | some cu =>
    if cu.isMuted then []
    else
      let payload := PeerData.typing_status cu.name isTyping
      if cu.isHost then broadcast st payload else sendToHost st payload

/-- The discrete events a connected guest can observe; a close event carries
the status snapshot its handler closure captured at registration. -/
inductive GuestEvent
  | data (d : PeerData)
  | connClose (closureStatus : SessionStatus)
  | peerError (t : PeerErrorType)

/-- One guest event step, paired with the redial actions it requests.  The
`data` and `connClose` handlers of the source contain no `peer.connect` or
`joinRoom` call, so only the peer-error handler can request a dial. -/
def guestStep (st : HookState) (e : GuestEvent) : HookState × List GuestAction :=
  match e with
  | .data d => (guestHandleData st d, [])
  | .connClose closureStatus => (guestHandleConnClose st closureStatus, [])
  | .peerError t => guestHandlePeerError st t

/-- `applyHistoryChunks st cs`: the guest processes the `history_sync`
envelopes `cs` in arrival order. -/
def applyHistoryChunks (st : HookState) (cs : List (List Message)) : HookState :=
  cs.foldl (fun s c => guestHandleData s (.history_sync (.arr c))) st

/-! ### Helper lemmas about the stable sort used by the history merge -/

theorem orderedInsert_eq_cons {α : Type _} {r : α → α → Prop} [DecidableRel r]
    {x : α} {l : List α} (h : ∀ z ∈ l, r x z) :
    List.orderedInsert r x l = x :: l := by
  cases l with
  | nil => rfl
  | cons y ys => simp [List.orderedInsert, h y (by simp)]

theorem filter_orderedInsert {α : Type _} {r : α → α → Prop} [DecidableRel r]
    [IsTrans α r] (p : α → Bool) (x : α) :
    ∀ {l : List α}, List.Sorted r l →
      List.filter p (List.orderedInsert r x l) =
        if p x then List.orderedInsert r x (List.filter p l) else List.filter p l := by
  intro l
  induction l with
  | nil =>
    intro _
    by_cases hx : p x <;> simp [List.orderedInsert, hx]
  | cons y ys ih =>
    intro hs
    by_cases hr : r x y
    · have hall : ∀ z ∈ List.filter p (y :: ys), r x z := by
        intro z hz
        have hz2 : z ∈ y :: ys := List.mem_of_mem_filter hz
        rcases List.mem_cons.mp hz2 with h1 | h2
        · exact h1 ▸ hr
        · exact Trans.trans hr (List.rel_of_sorted_cons hs z h2)
      by_cases hx : p x
      · have hfx : List.filter p (x :: y :: ys) = x :: List.filter p (y :: ys) := by
          simp [List.filter_cons, hx]
        rw [List.orderedInsert, if_pos hr, hfx, if_pos hx, orderedInsert_eq_cons hall]
      · simp [List.orderedInsert, hr, hx, List.filter_cons]
    · have ihs := ih hs.of_cons
      by_cases hy : p y <;> by_cases hx : p x <;>
        simp [List.orderedInsert, hr, hy, hx, List.filter_cons, ihs]

theorem filter_insertionSort {α : Type _} {r : α → α → Prop} [DecidableRel r]
    [IsTotal α r] [IsTrans α r] (p : α → Bool) (l : List α) :
    List.filter p (List.insertionSort r l) = List.insertionSort r (List.filter p l) := by
  induction l with
  | nil => rfl
  | cons a l ih =>
    rw [List.insertionSort, filter_orderedInsert p a (List.sorted_insertionSort r l),
      List.filter_cons]
    by_cases h : p a <;> simp [h, List.insertionSort, ih]

theorem insertionSort_append_insertionSort {α : Type _} {r : α → α → Prop}
    [DecidableRel r] [IsTotal α r] [IsTrans α r] (h l : List α) :
    List.insertionSort r (h ++ List.insertionSort r l) = List.insertionSort r (h ++ l) := by
  induction h with
  | nil => simpa using (List.sorted_insertionSort r l).insertionSort_eq
  | cons a h ih => simp [List.insertionSort, ih]

theorem eq_of_perm_of_sorted_tsLE {l1 l2 : List Message}
    (hp : l1.Perm l2) (hs1 : List.Sorted tsLE l1) (hs2 : List.Sorted tsLE l2)
    (hne : l1.Pairwise (fun a b => a.timestamp ≠ b.timestamp)) : l1 = l2 := by
  have hne2 : l2.Pairwise (fun a b => a.timestamp ≠ b.timestamp) :=
    (hp.pairwise_iff (fun hab => Ne.symm hab)).mp hne
  have hlt1 : List.Sorted tsLT l1 :=
    (hs1.and hne).imp (fun hab => Nat.lt_of_le_of_ne hab.1 hab.2)
  have hlt2 : List.Sorted tsLT l2 :=
    (hs2.and hne2).imp (fun hab => Nat.lt_of_le_of_ne hab.1 hab.2)
  exact List.eq_of_perm_of_sorted hp hlt1 hlt2

/-! ### Small facts about `addMessage` -/

theorem addMessage_seen_noop {st : HookState} {m : Message}
    (h : m.id ∈ st.messageIds) : addMessage st m = st := by
  simp [addMessage, h]

theorem addMessage_fresh {st : HookState} {m : Message}
    (h : m.id ∉ st.messageIds) :
    addMessage st m = { st with
      messageIds := insert m.id st.messageIds
      messages := st.messages ++ [m] } := by
  simp [addMessage, h]

theorem addMessage_idem (st : HookState) (m : Message) :
    addMessage (addMessage st m) m = addMessage st m := by
  by_cases h : m.id ∈ st.messageIds
  · simp [addMessage, h]
  · simp [addMessage, h]

/-! ### Sample data used by concrete witnesses and counterexamples -/

/-- A muted guest participant. -/
def wUserMuted : User :=
  { id := "u1", name := "Ann", color := "#f87171", isHost := false, isMuted := true }

/-- A connected guest session whose current user is muted. -/
def wStateC9 : HookState :=
  { users := [wUserMuted], messages := [], roomId := some "room-1"
    status := .connected, error := none, typingUsers := []
    currentUser := some wUserMuted, isAiThinking := false
    connections := [], hostConnOpen := true, messageIds := ∅
    connMap := [], retryCount := 0 }

/-! ### Claims -/

/-- Claim C10: a guest receiving a `HistoryChunk` envelope whose payload is
not an array leaves the message log, the dedup cache and all other session
state unchanged: the malformed chunk is silently ignored. -/
theorem C10_malformed_history_ignored (st : HookState) :
    guestHandleData st (.history_sync .notArray) = st := rfl

/-- Claim C9: when the local current user is muted, `sendMessage` leaves the
whole state (log, dedup cache) unchanged and pushes nothing onto any
connection, and `setTyping` sends no typing signal. -/
theorem C9_local_mute_suppression (st : HookState) (cu : User)
    (hcu : st.currentUser = some cu) (hmuted : cu.isMuted = true)
    (content : String) (mtype : MessageType) (newId : String) (now : Nat)
    (aiOutcome : ResponderOutcome) (aiId : String) (aiNow : Nat) (isTyping : Bool) :
    sendMessage st content mtype newId now aiOutcome aiId aiNow = (st, []) ∧
    setTyping st isTyping = [] := by
  constructor
  · simp [sendMessage, hcu, hmuted]
  · simp [setTyping, hcu, hmuted]

/-- Witness for C9 at a concrete muted session. -/
theorem C9_local_mute_suppression_witness :
    wStateC9.currentUser = some wUserMuted ∧ wUserMuted.isMuted = true ∧
    sendMessage wStateC9 "hi" .TEXT "m1" 5 .fetchFailure "a1" 6 = (wStateC9, []) ∧
    setTyping wStateC9 true = [] := by
  refine ⟨rfl, rfl, ?_, ?_⟩
  · exact (C9_local_mute_suppression wStateC9 wUserMuted rfl rfl
      "hi" .TEXT "m1" 5 .fetchFailure "a1" 6 true).1
  · exact (C9_local_mute_suppression wStateC9 wUserMuted rfl rfl
      "hi" .TEXT "m1" 5 .fetchFailure "a1" 6 true).2

/-- Claim C5 (code bug): receiving an `Eviction` (`kick_notification`)
envelope does set the session status to `kicked`, record the reason, close
the host connection, and request no dial — but the close handler's guard
reads the status snapshot captured when `joinRoom` ran (`connecting`, never
`kicked`), so the close event that the eviction itself triggers replaces
`kicked` with the generic error status, contradicting the claimed
persistence.  The guard `state.status !== 'kicked'` documents the intended
behaviour; the closure capture defeats it. -/
theorem C5_kicked_replaced_by_error (st : HookState) (reason : String) :
    (guestHandleData st (.kick_notification reason)).status = .kicked ∧
    (guestHandleData st (.kick_notification reason)).hostConnOpen = false ∧
    (guestHandleData st (.kick_notification reason)).error = some reason ∧
    (guestStep (guestHandleData st (.kick_notification reason))
        (.connClose .connecting)).2 = [] ∧
    (guestHandleConnClose (guestHandleData st (.kick_notification reason))
        .connecting).status = .error ∧
    (guestHandleConnClose (guestHandleData st (.kick_notification reason))
        .connecting).error = some "Host disconnected." := by
  refine ⟨rfl, rfl, rfl, rfl, ?_, ?_⟩ <;>
    simp [guestHandleData, guestHandleConnClose]

/-- Claim C6: a `peer-unavailable` dial failure is retried with a fixed
2000 ms delay while fewer than three retries have occurred; starting from a
fresh dial, the fourth consecutive such failure is surfaced as a fatal error
with no further retry, and any other failure class is fatal immediately with
no retry. -/
theorem C6_dial_retry_policy (st : HookState) :
    (st.retryCount < 3 →
      guestHandlePeerError st .peerUnavailable
        = ({ st with retryCount := st.retryCount + 1 }, [GuestAction.dialRetry 2000])) ∧
    (∀ tag, guestHandlePeerError st (.other tag)
        = ({ st with status := .error, error := some ("Connection Error: " ++ tag) }, [])) ∧
    (st.retryCount = 0 →
      (guestHandlePeerError st .peerUnavailable).2 = [GuestAction.dialRetry 2000] ∧
      ((guestHandlePeerError st .peerUnavailable).1.status = st.status ∧
       (guestHandlePeerError
          (guestHandlePeerError st .peerUnavailable).1 .peerUnavailable).2
         = [GuestAction.dialRetry 2000] ∧
       (guestHandlePeerError
          (guestHandlePeerError
            (guestHandlePeerError st .peerUnavailable).1 .peerUnavailable).1
          .peerUnavailable).2 = [GuestAction.dialRetry 2000] ∧
       (guestHandlePeerError
          (guestHandlePeerError
            (guestHandlePeerError
              (guestHandlePeerError st .peerUnavailable).1 .peerUnavailable).1
            .peerUnavailable).1 .peerUnavailable).1.status = .error ∧
       (guestHandlePeerError
          (guestHandlePeerError
            (guestHandlePeerError
              (guestHandlePeerError st .peerUnavailable).1 .peerUnavailable).1
            .peerUnavailable).1 .peerUnavailable).1.error
         = some "Room ID not found. Host might be offline." ∧
       (guestHandlePeerError
          (guestHandlePeerError
            (guestHandlePeerError
              (guestHandlePeerError st .peerUnavailable).1 .peerUnavailable).1
            .peerUnavailable).1 .peerUnavailable).2 = [])) := by
  refine ⟨fun h => ?_, fun tag => ?_, fun h0 => ?_⟩
  · simp [guestHandlePeerError, h]
  · simp [guestHandlePeerError]
  · simp [guestHandlePeerError, h0]

/-- Witness for C6 at a concrete fresh-dial session. -/
theorem C6_dial_retry_policy_witness :
    wStateC9.retryCount < 3 ∧ wStateC9.retryCount = 0 ∧
    guestHandlePeerError wStateC9 .peerUnavailable
      = ({ wStateC9 with retryCount := wStateC9.retryCount + 1 },
          [GuestAction.dialRetry 2000]) ∧
    guestHandlePeerError wStateC9 (.other "network")
      = ({ wStateC9 with status := .error, error := some ("Connection Error: " ++ "network") }, []) ∧
    (guestHandlePeerError wStateC9 .peerUnavailable).2 = [GuestAction.dialRetry 2000] := by
  refine ⟨by norm_num [wStateC9], rfl, ?_, ?_, ?_⟩
  · exact (C6_dial_retry_policy wStateC9).1 (by norm_num [wStateC9])
  · exact (C6_dial_retry_policy wStateC9).2.1 "network"
  · exact ((C6_dial_retry_policy wStateC9).2.2 rfl).1

/-! ### Lemmas about the history merge -/

theorem filter_notin_ids_self (h : List Message) :
    h.filter (fun m => m.id ∉ h.map (fun x => x.id)) = [] := by
  rw [List.filter_eq_nil_iff]
  intro a ha
  simp only [decide_eq_true_eq, Decidable.not_not]
  exact List.mem_map_of_mem _ ha

theorem filter_ids_idem (h M : List Message) :
    (M.filter (fun m => m.id ∉ h.map (fun x => x.id))).filter
        (fun m => m.id ∉ h.map (fun x => x.id))
      = M.filter (fun m => m.id ∉ h.map (fun x => x.id)) := by
  rw [List.filter_filter]
  exact List.filter_congr (fun a _ => Bool.and_self _)

theorem merge_twice_eq (h M : List Message) :
    List.insertionSort tsLE
      (h ++ (List.insertionSort tsLE
          (h ++ M.filter (fun m => m.id ∉ h.map (fun x => x.id)))).filter
            (fun m => m.id ∉ h.map (fun x => x.id)))
      = List.insertionSort tsLE
          (h ++ M.filter (fun m => m.id ∉ h.map (fun x => x.id))) := by
  rw [filter_insertionSort, List.filter_append, filter_notin_ids_self,
    filter_ids_idem, List.nil_append, insertionSort_append_insertionSort]

/-- The merged list of a history chunk `h` contains an element carrying any
id that occurs in `h`. -/
theorem mem_ids_merge {h : List Message} {i : String}
    (hm : i ∈ h.map (fun x => x.id)) (M : List Message) :
    i ∈ (List.insertionSort tsLE
        (h ++ M.filter (fun m => m.id ∉ h.map (fun x => x.id)))).map
          (fun x => x.id) := by
  obtain ⟨x, hxh, hxid⟩ := List.mem_map.mp hm
  refine List.mem_map.mpr ⟨x, ?_, hxid⟩
  rw [List.mem_insertionSort]
  exact List.mem_append_left _ hxh

/-- Claim C2: message ingestion is idempotent.  For any message `m` and any
state, applying the ingestion path for `m` a second time — whether the two
deliveries are direct relays, history chunks containing `m`, or one of each
in either order — yields the same state (log and dedup cache) as a single
application. -/
theorem C2_ingestion_idempotent (st : HookState) (m : Message) (h : List Message)
    (hm : m.id ∈ h.map (fun x => x.id)) :
    (guestHandleData (guestHandleData st (.message m)) (.message m)
       = guestHandleData st (.message m)) ∧
    (guestHandleData (guestHandleData st (.history_sync (.arr h))) (.history_sync (.arr h))
       = guestHandleData st (.history_sync (.arr h))) ∧
    (guestHandleData (guestHandleData st (.message m)) (.history_sync (.arr h))
       = guestHandleData st (.history_sync (.arr h))) ∧
    (guestHandleData (guestHandleData st (.history_sync (.arr h))) (.message m)
       = guestHandleData st (.history_sync (.arr h))) := by
  refine ⟨addMessage_idem st m, ?_, ?_, ?_⟩
  · simp only [guestHandleData]
    rw [merge_twice_eq, Finset.union_assoc, Finset.union_self]
  · by_cases hmem : m.id ∈ st.messageIds
    · simp only [guestHandleData]
      rw [addMessage_seen_noop hmem]
    · simp only [guestHandleData]
      rw [addMessage_fresh hmem]
      have hfm : (st.messages ++ [m]).filter (fun x => x.id ∉ h.map (fun x => x.id))
          = st.messages.filter (fun x => x.id ∉ h.map (fun x => x.id)) := by
        rw [List.filter_append]
        simp
        exact List.mem_map.mp hm
      rw [hfm]
      have hmX : m.id ∈ (List.insertionSort tsLE
          (h ++ st.messages.filter (fun x => x.id ∉ h.map (fun x => x.id)))).map
            (fun x => x.id) :=
        mem_ids_merge hm st.messages
      rw [Finset.insert_union, Finset.insert_eq_self.mpr
        (Finset.mem_union_right _ (List.mem_toFinset.mpr hmX))]
  · simp only [guestHandleData]
    exact addMessage_seen_noop
      (Finset.mem_union_right _ (List.mem_toFinset.mpr (mem_ids_merge hm st.messages)))

/-- A concrete chat message used by witnesses. -/
def wMsgA : Message :=
  { id := "m1", senderId := "u1", senderName := "Ann", content := "hello"
    timestamp := 5, type := .TEXT }

/-- Witness for C2 at a concrete state and message. -/
theorem C2_ingestion_idempotent_witness :
    wMsgA.id ∈ ([wMsgA].map (fun x => x.id)) ∧
    guestHandleData (guestHandleData wStateC9 (.message wMsgA)) (.message wMsgA)
      = guestHandleData wStateC9 (.message wMsgA) ∧
    guestHandleData (guestHandleData wStateC9 (.history_sync (.arr [wMsgA])))
        (.history_sync (.arr [wMsgA]))
      = guestHandleData wStateC9 (.history_sync (.arr [wMsgA])) := by
  refine ⟨by simp, ?_, ?_⟩
  · exact (C2_ingestion_idempotent wStateC9 wMsgA [wMsgA] (by simp)).1
  · exact (C2_ingestion_idempotent wStateC9 wMsgA [wMsgA] (by simp)).2.1

/-! ### Chunking lemmas for history replay -/

theorem chunkHistory_cons (m : Message) (rest : List Message) :
    chunkHistory (m :: rest)
      = ((m :: rest).take CHUNK_SIZE) :: chunkHistory ((m :: rest).drop CHUNK_SIZE) := by
  rw [chunkHistory]

theorem chunkHistory_flatten (l : List Message) : (chunkHistory l).flatten = l := by
  induction l using chunkHistory.induct with
  | case1 => simp [chunkHistory]
  | case2 m rest ih =>
    rw [chunkHistory_cons, List.flatten_cons, ih, List.take_append_drop]

theorem chunkHistory_chunk_bounds (l : List Message) :
    ∀ c ∈ chunkHistory l, c.length ≤ CHUNK_SIZE ∧ c ≠ [] := by
  induction l using chunkHistory.induct with
  | case1 => intro c hc; simp [chunkHistory] at hc
  | case2 m rest ih =>
    intro c hc
    rw [chunkHistory_cons] at hc
    rcases List.mem_cons.mp hc with h1 | h2
    · subst h1
      refine ⟨List.length_take_le _ _, fun hnil => ?_⟩
      rcases List.take_eq_nil_iff.mp hnil with h | h
      · exact absurd h (by simp [CHUNK_SIZE])
      · exact absurd h (by simp)
    · exact ih c h2

/-- Claim C7: one handshake admission schedules exactly one history replay:
an 800 ms-delayed sequence of `history_sync` chunks for the admitting
connection whose concatenation, in send order, is exactly the Host log after
the System "joined" message was appended, each chunk holding at most 20
messages. -/
theorem C7_history_replay (st : HookState) (ctx : HostCtx) (newUser : User)
    (hfresh : ctx.freshId ∉ st.messageIds) :
    (handleHostData st ctx (.handshake newUser)).historySchedule
        = some { delayMs := 800, target := ctx.senderPeer
                 chunks := chunkHistory (st.messages ++ [joinedSysMsg ctx newUser]) } ∧
    (handleHostData st ctx (.handshake newUser)).state.messages
        = st.messages ++ [joinedSysMsg ctx newUser] ∧
    (chunkHistory (st.messages ++ [joinedSysMsg ctx newUser])).flatten
        = (handleHostData st ctx (.handshake newUser)).state.messages ∧
    (∀ c ∈ chunkHistory (st.messages ++ [joinedSysMsg ctx newUser]),
        c.length ≤ CHUNK_SIZE ∧ c ≠ []) ∧
    fireHistoryTimeout true
        { delayMs := 800, target := ctx.senderPeer
          chunks := chunkHistory (st.messages ++ [joinedSysMsg ctx newUser]) }
      = (chunkHistory (st.messages ++ [joinedSysMsg ctx newUser])).map
          (fun chunk => Send.toPeer ctx.senderPeer (.history_sync (.arr chunk))) := by
  have hmsg : (handleHostData st ctx (.handshake newUser)).state.messages
      = st.messages ++ [joinedSysMsg ctx newUser] := by
    simp only [handleHostData]
    rw [addMessage_fresh hfresh]
  refine ⟨rfl, hmsg, ?_, chunkHistory_chunk_bounds _, ?_⟩
  · rw [hmsg, chunkHistory_flatten]
  · simp [fireHistoryTimeout]

/-- A concrete host user and session for witnesses. -/
def wHostUser : User :=
  { id := "h1", name := "Hank", color := "#60a5fa", isHost := true }

/-- A concrete open connection. -/
def wConn1 : DataConnection := { peer := "p1", isOpen := true }

/-- A connected host session with one registered guest connection. -/
def wHostState : HookState :=
  { users := [wHostUser], messages := [], roomId := some "R1"
    status := .connected, error := none, typingUsers := []
    currentUser := some wHostUser, isAiThinking := false
    connections := [wConn1], hostConnOpen := false, messageIds := ∅
    connMap := [("p1", "g1")], retryCount := 0 }

/-- A concrete joining guest. -/
def wGuestUser : User :=
  { id := "g1", name := "Gail", color := "#34d399", isHost := false }

/-- A concrete host event context; `closureUsers` is the pre-creation roster
snapshot (empty on a fresh room) held by the data-handler closure. -/
def wCtx : HostCtx :=
  { senderPeer := "p1", freshId := "sys1", now := 7, aiOutcome := .success "ok"
    closureUsers := [] }

/-- Witness for C7 at a concrete admission. -/
theorem C7_history_replay_witness :
    wCtx.freshId ∉ wHostState.messageIds ∧
    (handleHostData wHostState wCtx (.handshake wGuestUser)).historySchedule
        = some { delayMs := 800, target := wCtx.senderPeer
                 chunks := chunkHistory (wHostState.messages ++ [joinedSysMsg wCtx wGuestUser]) } ∧
    (handleHostData wHostState wCtx (.handshake wGuestUser)).state.messages
        = wHostState.messages ++ [joinedSysMsg wCtx wGuestUser] := by
  refine ⟨by simp [wHostState], ?_, ?_⟩
  · exact (C7_history_replay wHostState wCtx wGuestUser (by simp [wHostState])).1
  · exact (C7_history_replay wHostState wCtx wGuestUser (by simp [wHostState])).2.1

/-! ### Roster lookup lemma used by the disconnect claims -/

theorem find?_id_eq_of_nodup {l : List User} {P : User}
    (hn : (l.map (fun u => u.id)).Nodup) (hP : P ∈ l) :
    l.find? (fun u => u.id = P.id) = some P := by
  induction l with
  | nil => cases hP
  | cons a l ih =>
    have hn2 : (a.id ∉ l.map (fun u => u.id)) ∧ (l.map (fun u => u.id)).Nodup := by
      simpa using List.nodup_cons.mp hn
    rcases List.mem_cons.mp hP with rfl | hPl
    · rw [List.find?_cons_of_pos _ (by simp)]
    · have hne : a.id ≠ P.id := fun he => hn2.1 (he ▸ List.mem_map_of_mem _ hPl)
      rw [List.find?_cons_of_neg _ (by simp [hne])]
      exact ih hn2.2 hPl

/-- Claim C4: when participant P's connection closes, the roster becomes
exactly the prior roster minus P, exactly one System departure message is
appended and broadcast to the remaining open connections, and the eviction
path (`kickUser`) applies the very same state change immediately. -/
theorem C4_disconnect_roster_delta (st : HookState) (P : User)
    (freshId : String) (now : Nat)
    (hP : P ∈ st.users)
    (hnodup : (st.users.map (fun u => u.id)).Nodup)
    (hfresh : freshId ∉ st.messageIds) :
    (handleUserDisconnect st P.id P.name freshId now).1.users = st.users.erase P ∧
    (handleUserDisconnect st P.id P.name freshId now).1.messages
        = st.messages ++ [leftSysMsg freshId now P.name] ∧
    (leftSysMsg freshId now P.name).type = .SYSTEM ∧
    (handleUserDisconnect st P.id P.name freshId now).2
        = (st.connections.filter (fun c => c.isOpen)).map
            (fun c => Send.toPeer c.peer (.user_list_update (st.users.erase P)))
          ++ (st.connections.filter (fun c => c.isOpen)).map
            (fun c => Send.toPeer c.peer (.message (leftSysMsg freshId now P.name))) ∧
    ((st.currentUser.map (fun u => u.isHost)).getD false = true →
      (kickUser st P.id freshId now).1
        = (handleUserDisconnect st P.id P.name freshId now).1) := by
  have hfe : st.users.filter (fun u => u.id ≠ P.id) = st.users.erase P := by
    rw [(List.Nodup.of_map _ hnodup).erase_eq_filter]
    apply List.filter_congr
    intro u hu
    by_cases hup : u = P
    · subst hup; simp
    · have hid : u.id ≠ P.id := fun he => hup (List.inj_on_of_nodup_map hnodup hu hP he)
      simp [hid, hup]
  have hconn : (st.connections.filter (fun c => c.isOpen)).filter (fun c => c.isOpen)
      = st.connections.filter (fun c => c.isOpen) := by
    rw [List.filter_filter]
    exact List.filter_congr (fun a _ => Bool.and_self _)
  refine ⟨?_, ?_, rfl, ?_, ?_⟩
  · simp only [handleUserDisconnect]
    rw [addMessage_fresh hfresh, hfe]
  · simp only [handleUserDisconnect]
    rw [addMessage_fresh hfresh]
  · simp only [handleUserDisconnect, broadcast]
    rw [addMessage_fresh hfresh, hfe, hconn]
  · intro hhost
    simp only [kickUser, hhost]
    rw [find?_id_eq_of_nodup hnodup hP]
    simp

/-- Witness for C4 at a concrete host session. -/
theorem C4_disconnect_roster_delta_witness :
    wGuestUser ∈ (wHostState.users ++ [wGuestUser]) ∧
    (handleUserDisconnect
        { wHostState with users := wHostState.users ++ [wGuestUser] }
        wGuestUser.id wGuestUser.name "sys2" 9).1.users
      = ({ wHostState with users := wHostState.users ++ [wGuestUser] } :
          HookState).users.erase wGuestUser ∧
    (handleUserDisconnect
        { wHostState with users := wHostState.users ++ [wGuestUser] }
        wGuestUser.id wGuestUser.name "sys2" 9).1.messages
      = wHostState.messages ++ [leftSysMsg "sys2" 9 wGuestUser.name] := by
  refine ⟨by simp, ?_, ?_⟩
  · exact (C4_disconnect_roster_delta
      { wHostState with users := wHostState.users ++ [wGuestUser] }
      wGuestUser "sys2" 9 (by simp) (by simp [wHostState, wHostUser, wGuestUser])
      (by simp [wHostState])).1
  · exact (C4_disconnect_roster_delta
      { wHostState with users := wHostState.users ++ [wGuestUser] }
      wGuestUser "sys2" 9 (by simp) (by simp [wHostState, wHostUser, wGuestUser])
      (by simp [wHostState])).2.1

/-! ### Mute enforcement (C1) -/

/-- Unfolding of the non-dropping, bot-triggering `message` branch of
`handleHostData`: the drop is decided by the closure roster snapshot. -/
theorem handleHostData_message_trigger (st : HookState) (ctx : HostCtx)
    (msg : Message)
    (hnotmuted : ((ctx.closureUsers.find? (fun u => u.id = msg.senderId)).map
        (fun u => u.isMuted)).getD false = false)
    (htrig : msg.type = .TEXT ∧ mentionsBot msg.content) :
    handleHostData st ctx (.message msg)
      = { state := { addMessage (addMessage st msg) (aiReplyMsg ctx) with
              isAiThinking := false },
          sends := broadcast (addMessage st msg) (.message msg)
              ++ broadcast (addMessage (addMessage st msg) (aiReplyMsg ctx))
                  (.message (aiReplyMsg ctx)),
          historySchedule := none,
          thinkingTrace := [true, false] } := by
  simp only [handleHostData]
  rw [if_neg (by simp [hnotmuted]), if_pos htrig]

/-- Unfolding of the non-dropping, non-triggering `message` branch of
`handleHostData`. -/
theorem handleHostData_message_noTrigger (st : HookState) (ctx : HostCtx)
    (msg : Message)
    (hnotmuted : ((ctx.closureUsers.find? (fun u => u.id = msg.senderId)).map
        (fun u => u.isMuted)).getD false = false)
    (htrig : ¬ (msg.type = .TEXT ∧ mentionsBot msg.content)) :
    handleHostData st ctx (.message msg)
      = { state := addMessage st msg
          sends := broadcast (addMessage st msg) (.message msg)
          historySchedule := none
          thinkingTrace := [] } := by
  simp only [handleHostData]
  rw [if_neg (by simp [hnotmuted]), if_neg htrig]

/-- A muted concrete guest. -/
def wMutedGuest : User :=
  { id := "g1", name := "Gail", color := "#34d399", isHost := false, isMuted := true }

/-- A host session whose roster holds a muted guest. -/
def wHostStateMuted : HookState := { wHostState with users := [wHostUser, wMutedGuest] }

/-- A concrete chat envelope authored by the muted guest. -/
def wChatMsg : Message :=
  { id := "mm1", senderId := "g1", senderName := "Gail", content := "hi there"
    timestamp := 12, type := .TEXT }

/-- Claim C1 (code bug): relay-side mute enforcement never fires.  The muted
check consults the roster snapshot captured by the data-handler closure —
the pre-creation roster, which cannot contain a guest admitted afterwards —
so `sender` is undefined and the drop branch is dead.  Even with the author
muted in the live roster, the Chat envelope is appended to the log, its id
is inserted into the dedup cache, and it is broadcast to every open
connection, where the claim requires it to be recorded as seen but neither
appended nor broadcast. -/
theorem C1_mute_enforcement_broken :
    wMutedGuest ∈ wHostStateMuted.users ∧ wMutedGuest.isMuted = true ∧
    wChatMsg.senderId = wMutedGuest.id ∧
    (handleHostData wHostStateMuted wCtx (.message wChatMsg)).state.messages
        = wHostStateMuted.messages ++ [wChatMsg] ∧
    wChatMsg.id ∈ (handleHostData wHostStateMuted wCtx (.message wChatMsg)).state.messageIds ∧
    Send.toPeer "p1" (.message wChatMsg)
        ∈ (handleHostData wHostStateMuted wCtx (.message wChatMsg)).sends := by
  decide

/-- A host session whose roster holds the unmuted guest. -/
def wHostStateUnmuted : HookState := { wHostState with users := [wHostUser, wGuestUser] }

/-! ### Responder failure behaviour (C8) -/

/-- A concrete bot-addressed message. -/
def wBotMsg : Message :=
  { id := "mb1", senderId := "g1", senderName := "Gail", content := "@ai help"
    timestamp := 12, type := .TEXT }

/-- A host event context whose responder call fails at the network level. -/
def wCtxFail : HostCtx :=
  { senderPeer := "p1", freshId := "ai1", now := 13, aiOutcome := .fetchFailure
    closureUsers := [] }

/-- The fallback reply the failing call produces at `wCtxFail`. -/
def wAiFailMsg : Message :=
  { id := "ai1", senderId := "ai-bot", senderName := "Nexus AI"
    content := AI_FAILURE_FALLBACK, timestamp := 13, type := .AI }

/-- Counterexample to claim C8 as stated: when the responder call fails, a
BotReply IS appended to the log and broadcast — its content is the fallback
error text produced inside `generateAIResponse`, not "no message". -/
theorem C8_failure_reply_counterexample :
    (handleHostData wHostStateUnmuted wCtxFail (.message wBotMsg)).state.messages
        = [wBotMsg, wAiFailMsg] ∧
    Send.toPeer "p1" (.message wAiFailMsg)
        ∈ (handleHostData wHostStateUnmuted wCtxFail (.message wBotMsg)).sends := by
  decide

/-- Claim C8 amended: when the Host bot trigger fires and the responder call
fails, no exception propagates (the wrapper converts every failure into a
returned fallback string), the thinking flag is raised and cleared when the
call settles; but rather than producing no message, the Host appends and
broadcasts a BotReply whose content is the fallback error text. -/
theorem C8_failure_fallback_reply (st : HookState) (ctx : HostCtx)
    (msg : Message)
    (hnotmuted : ((ctx.closureUsers.find? (fun u => u.id = msg.senderId)).map
        (fun u => u.isMuted)).getD false = false)
    (htext : msg.type = .TEXT) (htrig : mentionsBot msg.content = true)
    (hfail : ctx.aiOutcome = .fetchFailure ∨ ctx.aiOutcome = .httpNotOk)
    (hfreshm : msg.id ∉ st.messageIds) (hfresha : ctx.freshId ∉ st.messageIds)
    (hne : ctx.freshId ≠ msg.id) :
    generateAIResponse ctx.aiOutcome = AI_FAILURE_FALLBACK ∧
    (handleHostData st ctx (.message msg)).state.messages
        = (st.messages ++ [msg]) ++ [aiReplyMsg ctx] ∧
    (aiReplyMsg ctx).content = AI_FAILURE_FALLBACK ∧
    (handleHostData st ctx (.message msg)).thinkingTrace = [true, false] ∧
    (handleHostData st ctx (.message msg)).state.isAiThinking = false := by
  have hresp : generateAIResponse ctx.aiOutcome = AI_FAILURE_FALLBACK := by
    rcases hfail with h | h <;>
      rw [generateAIResponse.eq_def, if_neg (by decide), h]
  have hfresha2 : (aiReplyMsg ctx).id ∉ (addMessage st msg).messageIds := by
    rw [addMessage_fresh hfreshm]
    simp only [Finset.mem_insert]
    exact fun hor => hor.elim hne hfresha
  refine ⟨hresp, ?_, by simp [aiReplyMsg, hresp], ?_, ?_⟩
  · rw [handleHostData_message_trigger st ctx msg hnotmuted ⟨htext, htrig⟩]
    show (addMessage (addMessage st msg) (aiReplyMsg ctx)).messages = _
    rw [addMessage_fresh hfresha2]
    show (addMessage st msg).messages ++ _ = _
    rw [addMessage_fresh hfreshm]
  · rw [handleHostData_message_trigger st ctx msg hnotmuted ⟨htext, htrig⟩]
  · rw [handleHostData_message_trigger st ctx msg hnotmuted ⟨htext, htrig⟩]

/-- Witness for the amended C8 at a concrete failing call. -/
theorem C8_failure_fallback_reply_witness :
    ((wCtxFail.closureUsers.find? (fun u => u.id = wBotMsg.senderId)).map
        (fun u => u.isMuted)).getD false = false ∧
    mentionsBot wBotMsg.content = true ∧
    wCtxFail.aiOutcome = .fetchFailure ∧
    generateAIResponse wCtxFail.aiOutcome = AI_FAILURE_FALLBACK ∧
    (handleHostData wHostStateUnmuted wCtxFail (.message wBotMsg)).thinkingTrace
        = [true, false] := by
  refine ⟨by decide, by decide, rfl, ?_, ?_⟩
  · exact (C8_failure_fallback_reply wHostStateUnmuted wCtxFail wBotMsg
      (by decide) rfl (by decide) (Or.inl rfl) (by decide) (by decide) (by decide)).1
  · exact (C8_failure_fallback_reply wHostStateUnmuted wCtxFail wBotMsg
      (by decide) rfl (by decide) (Or.inl rfl) (by decide) (by decide) (by decide)).2.2.2.1

/-! ### History merge across arbitrarily ordered, duplicated chunks (C3) -/

/-- The pure messages-level effect of one `history_sync` chunk. -/
def mergeStep (cur c : List Message) : List Message :=
  List.insertionSort tsLE (c ++ cur.filter (fun m => m.id ∉ c.map (fun x => x.id)))

theorem guestHandleData_history_messages (st : HookState) (c : List Message) :
    (guestHandleData st (.history_sync (.arr c))).messages = mergeStep st.messages c := rfl

theorem applyHistoryChunks_messages (cs : List (List Message)) :
    ∀ st : HookState, (applyHistoryChunks st cs).messages = cs.foldl mergeStep st.messages := by
  induction cs with
  | nil => intro st; rfl
  | cons c cs ih =>
    intro st
    show (applyHistoryChunks (guestHandleData st (.history_sync (.arr c))) cs).messages = _
    rw [ih, guestHandleData_history_messages, List.foldl_cons]

theorem mergeStep_mem {G cur c : List Message}
    (hinj : ∀ x ∈ G, ∀ y ∈ G, x.id = y.id → x = y)
    (hcur : cur ⊆ G) (hc : c ⊆ G) (m : Message) :
    m ∈ mergeStep cur c ↔ m ∈ c ∨ m ∈ cur := by
  rw [mergeStep, List.mem_insertionSort, List.mem_append, List.mem_filter]
  constructor
  · rintro (h | ⟨h, _⟩)
    · exact Or.inl h
    · exact Or.inr h
  · rintro (h | h)
    · exact Or.inl h
    · by_cases hid : m.id ∈ c.map (fun x => x.id)
      · obtain ⟨x, hxc, hxid⟩ := List.mem_map.mp hid
        exact Or.inl (hinj x (hc hxc) m (hcur h) hxid ▸ hxc)
      · exact Or.inr ⟨h, by simpa using hid⟩

theorem mergeStep_nodup {cur c : List Message}
    (hncur : (cur.map (fun m => m.id)).Nodup)
    (hnc : (c.map (fun m => m.id)).Nodup) :
    ((mergeStep cur c).map (fun m => m.id)).Nodup := by
  have hperm : ((mergeStep cur c).map (fun m => m.id)).Perm
      ((c ++ cur.filter (fun m => m.id ∉ c.map (fun x => x.id))).map (fun m => m.id)) :=
    (List.perm_insertionSort tsLE _).map _
  rw [hperm.nodup_iff, List.map_append, List.nodup_append]
  refine ⟨hnc, hncur.sublist ((List.filter_sublist cur).map _), fun a ha hafil => ?_⟩
  obtain ⟨x, hxf, hxid⟩ := List.mem_map.mp hafil
  have hx := List.mem_filter.mp hxf
  have : x.id ∉ c.map (fun y => y.id) := by simpa using hx.2
  exact this (hxid ▸ ha)

theorem mergeStep_subset {G cur c : List Message}
    (hcur : cur ⊆ G) (hc : c ⊆ G) : mergeStep cur c ⊆ G := by
  intro m hm
  rw [mergeStep, List.mem_insertionSort, List.mem_append] at hm
  rcases hm with h | h
  · exact hc h
  · exact hcur (List.mem_of_mem_filter h)

theorem mergeFold_invariant {G : List Message}
    (hinj : ∀ x ∈ G, ∀ y ∈ G, x.id = y.id → x = y) :
    ∀ (cs : List (List Message)) (cur : List Message),
      cur ⊆ G → (cur.map (fun m => m.id)).Nodup →
      (∀ c ∈ cs, c ⊆ G ∧ (c.map (fun m => m.id)).Nodup) →
      (cs.foldl mergeStep cur ⊆ G) ∧
      ((cs.foldl mergeStep cur).map (fun m => m.id)).Nodup ∧
      (∀ m, m ∈ cs.foldl mergeStep cur ↔ m ∈ cur ∨ ∃ c ∈ cs, m ∈ c) := by
  intro cs
  induction cs with
  | nil =>
    intro cur h1 h2 _
    exact ⟨h1, h2, by simp⟩
  | cons c cs ih =>
    intro cur hcur hncur hcs
    obtain ⟨hcG, hcN⟩ := hcs c (by simp)
    have hsub : mergeStep cur c ⊆ G := mergeStep_subset hcur hcG
    have hnod : ((mergeStep cur c).map (fun m => m.id)).Nodup := mergeStep_nodup hncur hcN
    obtain ⟨s1, s2, s3⟩ := ih (mergeStep cur c) hsub hnod
      (fun c2 hc2 => hcs c2 (List.mem_cons_of_mem _ hc2))
    refine ⟨s1, s2, fun m => ?_⟩
    rw [List.foldl_cons] at *
    rw [s3 m, mergeStep_mem hinj hcur hcG m]
    simp only [List.mem_cons]
    constructor
    · rintro ((h | h) | ⟨c2, hc2, hm⟩)
      · exact Or.inr ⟨c, Or.inl rfl, h⟩
      · exact Or.inl h
      · exact Or.inr ⟨c2, Or.inr hc2, hm⟩
    · rintro (h | ⟨c2, (rfl | hc2), hm⟩)
      · exact Or.inl (Or.inr h)
      · exact Or.inl (Or.inl hm)
      · exact Or.inr ⟨c2, hc2, hm⟩

theorem foldl_mergeStep_sorted (cur : List Message) (cs : List (List Message))
    (h : cs ≠ []) : List.Sorted tsLE (cs.foldl mergeStep cur) := by
  rcases List.eq_nil_or_concat cs with rfl | ⟨L, b, hl⟩
  · exact absurd rfl h
  · rw [hl, List.concat_eq_append, List.foldl_append]
    exact List.sorted_insertionSort tsLE _

/-- Claim C3: for a log `L` (the flattening of its chunk list `CL`) delivered
as any permutation of the chunks, possibly with repeats, merged on top of any
locally buffered messages, the guest's final log equals the union of `L` and
the local messages sorted by timestamp, and no locally buffered message is
discarded.  Stated under unique ids across log and locals (the host's dedup
guarantees this) and pairwise-distinct timestamps (with timestamp ties the
sorted arrangement is not unique and the target list is underdetermined). -/
theorem C3_history_merge_order_independent (CL cs : List (List Message)) (st : HookState)
    (hids : ((CL.flatten ++ st.messages).map (fun m => m.id)).Nodup)
    (hts : (CL.flatten ++ st.messages).Pairwise (fun a b => a.timestamp ≠ b.timestamp))
    (hsub : ∀ c ∈ cs, c ∈ CL) (hcov : ∀ c ∈ CL, c ∈ cs) (hne : cs ≠ []) :
    (applyHistoryChunks st cs).messages
        = List.insertionSort tsLE (CL.flatten ++ st.messages) ∧
    (∀ m ∈ st.messages, m ∈ (applyHistoryChunks st cs).messages) := by
  have hinj : ∀ x ∈ CL.flatten ++ st.messages, ∀ y ∈ CL.flatten ++ st.messages,
      x.id = y.id → x = y :=
    fun x hx y hy hxy => List.inj_on_of_nodup_map hids hx hy hxy
  have hmapsplit : ((CL.flatten ++ st.messages).map (fun m => m.id))
      = CL.flatten.map (fun m => m.id) ++ st.messages.map (fun m => m.id) :=
    List.map_append _ _ _
  have hids2 := hids
  rw [hmapsplit, List.nodup_append] at hids2
  have hcur : st.messages ⊆ CL.flatten ++ st.messages := List.subset_append_right _ _
  have hchunks : ∀ c ∈ cs, c ⊆ CL.flatten ++ st.messages ∧
      (c.map (fun m => m.id)).Nodup := by
    intro c hc
    have hsubl : c.Sublist CL.flatten := List.sublist_flatten_of_mem (hsub c hc)
    constructor
    · exact fun m hm => List.mem_append_left _ (hsubl.subset hm)
    · exact hids2.1.sublist (hsubl.map _)
  obtain ⟨hsubG, hnod, hmem⟩ :=
    mergeFold_invariant hinj cs st.messages hcur hids2.2.1 hchunks
  have hmemG : ∀ m, m ∈ cs.foldl mergeStep st.messages ↔ m ∈ CL.flatten ++ st.messages := by
    intro m
    rw [hmem m, List.mem_append]
    constructor
    · rintro (h | ⟨c, hc, hm⟩)
      · exact Or.inr h
      · exact Or.inl (List.mem_flatten.mpr ⟨c, hsub c hc, hm⟩)
    · rintro (h | h)
      · obtain ⟨c, hcCL, hm⟩ := List.mem_flatten.mp h
        exact Or.inr ⟨c, hcov c hcCL, hm⟩
      · exact Or.inl h
  have hperm : (cs.foldl mergeStep st.messages).Perm (CL.flatten ++ st.messages) :=
    ((hnod.of_map).subperm (fun m hm => (hmemG m).mp hm)).antisymm
      ((hids.of_map).subperm (fun m hm => (hmemG m).mpr hm))
  have hsorted : List.Sorted tsLE (cs.foldl mergeStep st.messages) :=
    foldl_mergeStep_sorted st.messages cs hne
  have hnefold : (cs.foldl mergeStep st.messages).Pairwise
      (fun a b => a.timestamp ≠ b.timestamp) :=
    (hperm.pairwise_iff (fun hab => Ne.symm hab)).mpr hts
  have heq : cs.foldl mergeStep st.messages
      = List.insertionSort tsLE (CL.flatten ++ st.messages) :=
    eq_of_perm_of_sorted_tsLE (hperm.trans (List.perm_insertionSort tsLE _).symm)
      hsorted (List.sorted_insertionSort tsLE _) hnefold
  rw [applyHistoryChunks_messages]
  exact ⟨heq, fun m hm => (hmemG m).mpr (List.mem_append_right _ hm)⟩

/-- Concrete messages for the C3 witness. -/
def wMsgB : Message :=
  { id := "b1", senderId := "u1", senderName := "Ann", content := "one"
    timestamp := 1, type := .TEXT }

/-- Second concrete history message. -/
def wMsgC : Message :=
  { id := "c1", senderId := "u1", senderName := "Ann", content := "three"
    timestamp := 3, type := .TEXT }

/-- A locally buffered message that raced the replay. -/
def wMsgD : Message :=
  { id := "d1", senderId := "u1", senderName := "Ann", content := "two"
    timestamp := 2, type := .TEXT }

/-- A guest session holding one locally buffered message. -/
def wStateC3 : HookState := { wStateC9 with messages := [wMsgD] }

/-- Witness for C3: chunks delivered out of order and one of them twice. -/
theorem C3_history_merge_order_independent_witness :
    ((([[wMsgB], [wMsgC]] : List (List Message)).flatten
        ++ wStateC3.messages).map (fun m => m.id)).Nodup ∧
    (applyHistoryChunks wStateC3 [[wMsgC], [wMsgB], [wMsgC]]).messages
        = List.insertionSort tsLE
            (([[wMsgB], [wMsgC]] : List (List Message)).flatten ++ wStateC3.messages) := by
  refine ⟨by decide, ?_⟩
  exact (C3_history_merge_order_independent [[wMsgB], [wMsgC]]
    [[wMsgC], [wMsgB], [wMsgC]] wStateC3 (by decide) (by decide)
    (by decide) (by decide) (by decide)).1

end Nexus
